import Mathlib

/-!
Verification development for the claude-in-mobile repository.

Shallow embedding of the parts of the code the claims concern:
* the adaptive screenshot compressor (src/src/utils/image.ts, and the sharp-based
  dist variant),
* the device manager (src/src/device-manager.ts),
* the desktop accessibility layer (Kotlin `BaseAccessibilityService`,
  `LinuxAccessibility`, `MacOSAccessibility`),
* the tap-by-text / tap-by-resource-id path of the MCP tool handler
  (src/src/index.ts).

External collaborators (the Jimp/sharp encoders, `Math.sqrt`, osascript output,
window enumeration, the adb/simctl backends) are modelled as explicit function
or data parameters; the embedded definitions mirror the control flow of the
source line by line.
-/

namespace Spec2Proof

/-! ## Screenshot compressor (src/src/utils/image.ts) -/

/-- `CompressOptions` of src/src/utils/image.ts; `none` models an absent field,
so that the JS spread `{ ...DEFAULT_OPTIONS, ...options }` can be embedded as a
field-wise default merge. -/
structure CompressOptions where
  maxWidth : Option Int := none
  maxHeight : Option Int := none
  quality : Option Nat := none
  maxSizeBytes : Option Nat := none
deriving DecidableEq, Repr

/-- The options record after merging with `DEFAULT_OPTIONS`; every field is
present. -/
structure MergedOptions where
  maxWidth : Int
  maxHeight : Int
  quality : Nat
  maxSizeBytes : Nat
deriving DecidableEq, Repr

/-- `DEFAULT_OPTIONS` of src/src/utils/image.ts (lines 10-15):
maxWidth 800, maxHeight 1400, quality 70, maxSizeBytes 1024*1024. -/
def DEFAULT_OPTIONS : MergedOptions :=
  { maxWidth := 800, maxHeight := 1400, quality := 70, maxSizeBytes := 1024 * 1024 }

/-- `const opts = { ...DEFAULT_OPTIONS, ...options }`: a field absent from the
caller's options keeps its default. -/
def mergeOptions (options : CompressOptions) : MergedOptions :=
  { maxWidth := options.maxWidth.getD DEFAULT_OPTIONS.maxWidth
    maxHeight := options.maxHeight.getD DEFAULT_OPTIONS.maxHeight
    quality := options.quality.getD DEFAULT_OPTIONS.quality
    maxSizeBytes := options.maxSizeBytes.getD DEFAULT_OPTIONS.maxSizeBytes }

/-- Target-dimension computation of `compressScreenshot`
(src/src/utils/image.ts lines 34-45): if the source exceeds either bound,
both sides are scaled by the smaller of the two bound/side quotients and
rounded to the nearest integer (`Math.round`); otherwise dimensions are kept. -/
def targetDims (width height maxWidth maxHeight : Int) : Int × Int :=
  if width > maxWidth ∨ height > maxHeight then
    let widthQuot : ℚ := (maxWidth : ℚ) / (width : ℚ)
    let heightQuot : ℚ := (maxHeight : ℚ) / (height : ℚ)
    let k := min widthQuot heightQuot
    (round ((width : ℚ) * k), round ((height : ℚ) * k))
  else
    (width, height)

/-- The do/while quality-reduction loop of `compressScreenshot`
(src/src/utils/image.ts lines 52-69), with the mutable `attempts` counter
re-expressed as the number of retries still allowed
(`remaining = maxAttempts - 1 - attempts`, initially 4, so five encode
attempts in total). `enc q` is the byte length produced by
`image.getBuffer("image/jpeg", { quality: q })` at the current, already
resized dimensions, or the error it throws. Returns the last encoded byte
length together with the list of qualities used for encoding, in order. -/
def encodeLoopGo (enc : Nat → Except String Nat) (maxSizeBytes : Nat) :
    Nat → Nat → Except String (Nat × List Nat)
  | remaining, quality =>
    match enc quality with
    | .error e => .error e
    | .ok size =>
      if size ≤ maxSizeBytes then
        .ok (size, [quality])
      else
        let quality' := max 20 (quality - 15)
        match remaining with
        | r + 1 =>
          match encodeLoopGo enc maxSizeBytes r quality' with
          | .ok (s, qs) => .ok (s, quality :: qs)
          | .error e => .error e
        | 0 => .ok (size, [quality])

/-- Observable outcome of `compressScreenshot`: the byte length of the data
returned (before base64), the mime type, the final pixel dimensions, the
qualities of every JPEG encode performed in order, and whether the post-loop
geometric shrink ran. -/
structure CompressTrace where
  dataSize : Nat
  mimeType : String
  width : Int
  height : Int
  qualities : List Nat
  finalResize : Bool
deriving DecidableEq, Repr

/-- `compressScreenshot` of src/src/utils/image.ts (lines 24-85).
`enc w h q` models `image.getBuffer("image/jpeg", { quality: q })` after the
image was resized to `w × h` (byte length, or the thrown error); `sqrtFn`
models `Math.sqrt` as an uninterpreted function. -/
def compressScreenshot (enc : Int → Int → Nat → Except String Nat) (sqrtFn : ℚ → ℚ)
    (width height : Int) (options : CompressOptions) : Except String CompressTrace :=
  let opts := mergeOptions options
  let (newWidth, newHeight) := targetDims width height opts.maxWidth opts.maxHeight
  match encodeLoopGo (enc newWidth newHeight) opts.maxSizeBytes 4 opts.quality with
  | .error e => .error e
  | .ok (size, qs) =>
    if size > opts.maxSizeBytes then
      let scaleFactor : ℚ := sqrtFn ((opts.maxSizeBytes : ℚ) / (size : ℚ)) * (9 / 10)
      let smallerWidth : Int := round ((newWidth : ℚ) * scaleFactor)
      let smallerHeight : Int := round ((newHeight : ℚ) * scaleFactor)
      match enc smallerWidth smallerHeight 50 with
      | .error e => .error e
      | .ok finalSize =>
        .ok { dataSize := finalSize, mimeType := "image/jpeg", width := smallerWidth,
              height := smallerHeight, qualities := qs ++ [50], finalResize := true }
    else
      .ok { dataSize := size, mimeType := "image/jpeg", width := newWidth,
            height := newHeight, qualities := qs, finalResize := false }

/-- `toBase64Png` of src/src/utils/image.ts (lines 90-95): wraps the original
bytes with mime type image/png. -/
def toBase64Png (size : Nat) : Nat × String := (size, "image/png")

/-! ## Dist (sharp-based) compressor variant (src/unnamed/part_007) -/

/-- Options of the dist variant: only maxWidth/maxHeight/quality, with defaults
1080 / 1920 / 80 and no byte-size field at all. -/
structure DistOptions where
  maxWidth : Option Int := none
  maxHeight : Option Int := none
  quality : Option Nat := none
deriving DecidableEq, Repr

/-- The sharp-based `compressScreenshot` of src/unnamed/part_007: same
dimension computation, then a single `.resize(...).jpeg({quality}).toBuffer()`
pass; there is no size-bounded loop. -/
def distCompressScreenshot (enc : Int → Int → Nat → Nat)
    (width height : Int) (options : DistOptions) : CompressTrace :=
  let maxWidth := options.maxWidth.getD 1080
  let maxHeight := options.maxHeight.getD 1920
  let quality := options.quality.getD 80
  let (newWidth, newHeight) := targetDims width height maxWidth maxHeight
  { dataSize := enc newWidth newHeight quality, mimeType := "image/jpeg",
    width := newWidth, height := newHeight, qualities := [quality],
    finalResize := false }

/-! ## Device manager (src/src/device-manager.ts) -/

/-- `Platform` of src/src/device-manager.ts. -/
inductive Platform
  | android
  | ios
deriving DecidableEq, Repr, BEq

/-- `Device` of src/src/device-manager.ts. -/
structure Device where
  id : String
  name : String
  platform : Platform
  state : String
  isSimulator : Bool
deriving DecidableEq, Repr, BEq

/-- A device record as returned by `AdbClient.getDevices()`
(src/unnamed/part_008: `{id, state, model?}`). -/
structure RawAndroidDevice where
  id : String
  state : String
  model : Option String
deriving DecidableEq, Repr

/-- A device record as returned by `IosClient.getDevices()`
(src/unnamed/part_007 dist IosClient: `{id, name, state, isSimulator}`). -/
structure RawIosDevice where
  id : String
  name : String
  state : String
  isSimulator : Bool
deriving DecidableEq, Repr

/-- The per-device mapping in `getAllDevices`'s Android loop
(src/src/device-manager.ts lines 34-42): name is `model ?? id`, platform
android, simulator iff the id starts with "emulator". -/
def mapAndroidDevice (d : RawAndroidDevice) : Device :=
  { id := d.id, name := d.model.getD d.id, platform := .android, state := d.state,
    isSimulator := d.id.startsWith "emulator" }

/-- The per-device mapping in `getAllDevices`'s iOS loop
(src/src/device-manager.ts lines 50-57). -/
def mapIosDevice (d : RawIosDevice) : Device :=
  { id := d.id, name := d.name, platform := .ios, state := d.state,
    isSimulator := d.isSimulator }

/-- `DeviceManager.getAllDevices` (src/src/device-manager.ts lines 28-64).
Each backend's `getDevices()` call is a parameter that either returns a list
or throws; each call sits in its own try/catch whose handler contributes
nothing, and the loops push the mapped devices onto one array, Android first. -/
def getAllDevices (androidRes : Except String (List RawAndroidDevice))
    (iosRes : Except String (List RawIosDevice)) : List Device :=
  let devices : List Device := []
  let devices :=
    match androidRes with
    | .ok androidDevices =>
        androidDevices.foldl (fun acc d => acc ++ [mapAndroidDevice d]) devices
    | .error _ => devices
  let devices :=
    match iosRes with
    | .ok iosDevices =>
        iosDevices.foldl (fun acc d => acc ++ [mapIosDevice d]) devices
    | .error _ => devices
  devices

/-- Which backend client a call is routed to. -/
inductive ClientKind
  | android
  | ios
deriving DecidableEq, Repr

/-- `device.platform === "android" ? this.androidClient : this.iosClient`. -/
def clientFor : Platform → ClientKind
  | .android => .android
  | .ios => .ios

/-- The mutable fields of `DeviceManager` together with the device-id each
backend client was last informed of (`androidClient.setDevice` /
`iosClient.setDevice`). -/
structure DMState where
  activeDevice : Option Device := none
  androidSelected : Option String := none
  iosSelected : Option String := none
deriving DecidableEq, Repr

/-- `DeviceManager.setDevice` (src/src/device-manager.ts lines 78-103) over an
explicit enumeration result. The platform fallback predicate is embedded with
the source's operator precedence:
`d.platform === platform && d.state === "device" || d.state === "booted"`
parses as `(platform match ∧ state "device") ∨ state "booted"`. A thrown
"Device not found" happens before any mutation, so the state is returned
unchanged in that case; on success the active device is set and exactly the
matched device's platform client is informed. -/
def setDevice (devices : List Device) (deviceId : String) (platform : Option Platform)
    (s : DMState) : Except String Device × DMState :=
  let device := devices.find? fun (d : Device) => d.id == deviceId
  let device :=
    match device, platform with
    | none, some p =>
        devices.find? fun (d : Device) =>
          (d.platform == p && d.state == "device") || d.state == "booted"
    | d, _ => d
  match device with
  | none => (.error ("Device not found: " ++ deviceId), s)
  | some d =>
      let s := { s with activeDevice := some d }
      let s :=
        match d.platform with
        | .android => { s with androidSelected := some d.id }
        | .ios => { s with iosSelected := some d.id }
      (.ok d, s)

/-- `DeviceManager.getClient` (src/src/device-manager.ts lines 115-130) over an
explicit enumeration result: with no platform hint and no active device it
auto-detects by picking the first device whose state is "device" or "booted",
activates it via `setDevice`, and returns that device's platform client;
otherwise it throws the "No active device" error. -/
def getClient (devices : List Device) (platform : Option Platform)
    (s : DMState) : Except String ClientKind × DMState :=
  let targetPlatform : Option Platform :=
    match platform with
    | some p => some p
    | none => s.activeDevice.map Device.platform
  match targetPlatform with
  | some p => (.ok (clientFor p), s)
  | none =>
      match devices.find? fun (d : Device) => d.state == "device" || d.state == "booted" with
      | some booted =>
          match setDevice devices booted.id none s with
          | (.ok _, s') => (.ok (clientFor booted.platform), s')
          | (.error e, s') => (.error e, s')
      | none => (.error "No active device. Use set_device or list_devices first.", s)

/-! ## Desktop accessibility layer (Kotlin sources, src/unnamed/part_004/005/006) -/

/-- `Bounds` of the desktop companion (Kotlin Int fields). -/
structure Bounds where
  x : Int
  y : Int
  width : Int
  height : Int
deriving DecidableEq, Repr

/-- `UiElement` of the desktop companion. -/
structure UiElem where
  index : Nat
  id : Option String
  text : Option String
  contentDescription : Option String
  className : String
  role : String
  bounds : Bounds
  clickable : Bool
  enabled : Bool
  focused : Bool
  focusable : Bool
  centerX : Int
  centerY : Int
deriving DecidableEq, Repr

/-- `BaseAccessibilityService.createElement` (src/unnamed/part_005 lines
71-98), with the mutable `elementIndex++` counter passed explicitly. Kotlin
`Int` division truncates toward zero, which is `Int.tdiv`. -/
def createElement (elementIndex : Nat) (text id : Option String) (role : String)
    (x y width height : Int) (clickable enabled focused : Bool) : UiElem :=
  { index := elementIndex, id := id, text := text, contentDescription := none,
    className := role, role := role, bounds := ⟨x, y, width, height⟩,
    clickable := clickable, enabled := enabled, focused := focused,
    focusable := clickable,
    centerX := x + Int.tdiv width 2,
    centerY := y + Int.tdiv height 2 }

/-- `WindowInfo` of the desktop companion (the fields the accessibility layer
reads). -/
structure WindowInfo where
  id : String
  title : String
  bounds : Bounds
  focused : Bool
deriving DecidableEq, Repr

/-- `UiHierarchy` of the desktop companion. -/
structure UiHierarchy where
  windows : List WindowInfo
  elements : List UiElem
  scaleFactor : ℚ
deriving DecidableEq, Repr

/-- One enumeration pass that creates elements through the shared
`elementIndex` counter: `resetIndex()` followed by one `createElement` per
input, left to right (the Kotlin pattern `resetIndex(); xs.map { createElement(...) }`). -/
def indexedPass {α : Type} (f : Nat → α → UiElem) (xs : List α) : List UiElem :=
  (xs.foldl (fun (acc : List UiElem × Nat) a => (acc.1 ++ [f acc.2 a], acc.2 + 1)) ([], 0)).1

/-- The element built from a window in `LinuxAccessibility.getHierarchy`
(src/unnamed/part_004 lines 47-60); `WindowsAccessibility.getHierarchy` is
textually identical. -/
def windowElement (i : Nat) (w : WindowInfo) : UiElem :=
  createElement i (some w.title) (some w.id) "Window"
    w.bounds.x w.bounds.y w.bounds.width w.bounds.height true true w.focused

/-- `LinuxAccessibility.getHierarchy` (src/unnamed/part_004 lines 40-69):
`resetIndex()`, then one element per enumerated window, role "Window",
clickable true. -/
def linuxGetHierarchy (windows : List WindowInfo) (scaleFactor : ℚ) : UiHierarchy :=
  { windows := windows, elements := indexedPass windowElement windows,
    scaleFactor := scaleFactor }

/-- One raw tuple of the AppleScript output of
`MacOSAccessibility.getUIElementsFromFrontmostApp` (src/unnamed/part_006):
`{role, title, desc, x, y, w, h, enabled, focused}`. -/
structure RawMacElem where
  role : String
  title : String
  desc : String
  x : Int
  y : Int
  w : Int
  h : Int
  enabled : Bool
  focused : Bool
deriving DecidableEq, Repr

/-- The roles treated as clickable by `parseAppleScriptElements`
(src/unnamed/part_006 lines 195-199). -/
def macClickableRoles : List String :=
  ["AXButton", "AXLink", "AXCheckBox", "AXRadioButton",
   "AXMenuItem", "AXMenuButton", "AXTab", "AXTextField",
   "AXTextArea", "AXComboBox", "AXPopUpButton"]

/-- The AppleScript literal embedded in `getUIElementsFromFrontmostApp` only
emits a tuple when `item 1 of elemSize > 0 and item 2 of elemSize > 0`
(src/unnamed/part_006 lines 135-137): the script's output is the size-filtered
element list of the frontmost app. -/
def appleScriptOutput (raws : List RawMacElem) : List RawMacElem :=
  raws.filter fun r => r.w > 0 && r.h > 0

/-- The element built from one parsed AppleScript tuple in
`parseAppleScriptElements` (src/unnamed/part_006 lines 182-215):
`text = title.ifEmpty { null }`, no id, clickability derived from the role. -/
def macElement (i : Nat) (r : RawMacElem) : UiElem :=
  createElement i (if r.title = "" then none else some r.title) none r.role
    r.x r.y r.w r.h (macClickableRoles.contains r.role) r.enabled r.focused

/-- `parseAppleScriptElements` (src/unnamed/part_006 lines 177-216) applied to
the structured script output, elements appended in order through the shared
index counter. -/
def parseAppleScriptElements (output : List RawMacElem) : List UiElem :=
  indexedPass macElement output

/-- `MacOSAccessibility.getUIElementsFromFrontmostApp`
(src/unnamed/part_006 lines 84-175). `osascript` models the script run: either
the app's raw element list (exit code 0) or a thrown/failed invocation. Both
the error branch and an empty parse fall through to the single whole-screen
fallback element, role "AXWindow", text "Screen". -/
def getUIElementsFromFrontmostApp (osascript : Except String (List RawMacElem))
    (screenW screenH : Int) : List UiElem :=
  let elements : List UiElem :=
    match osascript with
    | .ok raws => parseAppleScriptElements (appleScriptOutput raws)
    | .error _ => []
  if elements.isEmpty then
    [createElement 0 (some "Screen") none "AXWindow" 0 0 screenW screenH true true false]
  else
    elements

/-- `MacOSAccessibility.getHierarchy` (src/unnamed/part_006 lines 62-82):
`resetIndex()`, window enumeration and scale factor are taken as inputs, the
elements come from `getUIElementsFromFrontmostApp`. -/
def macGetHierarchy (osascript : Except String (List RawMacElem))
    (windows : List WindowInfo) (screenW screenH : Int) (scaleFactor : ℚ) : UiHierarchy :=
  { windows := windows,
    elements := getUIElementsFromFrontmostApp osascript screenW screenH,
    scaleFactor := scaleFactor }

/-! ## Android tap-by-text / tap-by-resource-id (src/src/index.ts, tap case)

The tap handler imports `parseUiHierarchy`, `findByText` and
`findByResourceId` from `./adb/ui-parser.js`, a file that is not part of the
repository snapshot; the locator functions are therefore modelled from the
spec (§4.3), while the target selection itself is embedded from
src/src/index.ts lines 504-523. -/

/-- Modelled from the spec: the `UiElement` record produced by
src/adb/ui-parser.ts (absent from the snapshot); fields follow the spec's §3
data model, restricted to those the tap path reads. `resourceId` is the
element's `id`. -/
structure AndroidElem where
  index : Nat
  resourceId : Option String
  text : Option String
  contentDescription : Option String
  clickable : Bool
  centerX : Int
  centerY : Int
deriving DecidableEq, Repr

/-- `needle` occurs as a contiguous run at the head of `hay`. -/
def startsWithChars : List Char → List Char → Bool
  | [], _ => true
  | _ :: _, [] => false
  | a :: as, b :: bs => a == b && startsWithChars as bs

/-- `needle` occurs as a contiguous run anywhere in `hay`. -/
def containsChars : List Char → List Char → Bool
  | hay, needle =>
    startsWithChars needle hay ||
      match hay with
      | [] => false
      | _ :: t => containsChars t needle

/-- Case-insensitive substring test on an optional field; a missing field
matches nothing. -/
def fieldContainsCI (field : Option String) (query : String) : Bool :=
  match field with
  | some s => containsChars (s.data.map Char.toLower) (query.data.map Char.toLower)
  | none => false

/-- Case-sensitive substring test on an optional field. -/
def fieldContains (field : Option String) (query : String) : Bool :=
  match field with
  | some s => containsChars s.data query.data
  | none => false

/-- Modelled from the spec: `findByText` of src/adb/ui-parser.ts (absent from
the snapshot) — "case-insensitive substring match against `text` OR
`contentDescription`" (§4.3), an order-preserving filter over the parsed
sequence. -/
def findByText (elements : List AndroidElem) (query : String) : List AndroidElem :=
  elements.filter fun e => fieldContainsCI e.text query || fieldContainsCI e.contentDescription query

/-- Modelled from the spec: `findByResourceId` of src/adb/ui-parser.ts (absent
from the snapshot) — "substring match against `id`" (§4.3), an
order-preserving filter over the parsed sequence. -/
def findByResourceId (elements : List AndroidElem) (query : String) : List AndroidElem :=
  elements.filter fun e => fieldContains e.resourceId query

/-- Result of the tap tool handler for the locator-driven path. -/
inductive TapOutcome
  | notFound (message : String)
  | tapped (x y : Int)
deriving DecidableEq, Repr

/-- The shared tail of the tap case of `handleTool` (src/src/index.ts lines
516-523) once the match list `found` is known:
empty list reports "Element not found", otherwise
`const clickable = found.filter(el => el.clickable); const target = clickable[0] ?? found[0];`
and the tap goes to `target.centerX/centerY`. -/
def tapFromMatches (query : String) (found : List AndroidElem) : TapOutcome :=
  match found with
  | [] => .notFound ("Element not found: " ++ query)
  | f :: fs =>
      let clickableEls := (f :: fs).filter fun e => e.clickable
      let target := clickableEls.head?.getD f
      .tapped target.centerX target.centerY

/-- Tap-by-text command on Android (src/src/index.ts lines 504-523 with
`args.text` set). -/
def tapByText (elements : List AndroidElem) (query : String) : TapOutcome :=
  tapFromMatches query (findByText elements query)

/-- Tap-by-resource-id command on Android (src/src/index.ts lines 504-523 with
`args.resourceId` set). -/
def tapByResourceId (elements : List AndroidElem) (query : String) : TapOutcome :=
  tapFromMatches query (findByResourceId elements query)

/-- The claim's tie-break rule, written from the spec's words for comparison:
the first clickable element of the match list, else its first element. -/
def specTapTarget (found : List AndroidElem) : Option AndroidElem :=
  match found.find? (fun e => e.clickable) with
  | some t => some t
  | none => found.head?

/-! ## Helper lemmas -/

theorem head?_filter_eq_find? {α : Type} (p : α → Bool) (l : List α) :
    (l.filter p).head? = l.find? p := by
  induction l with
  | nil => rfl
  | cons a t ih =>
    simp only [List.filter_cons, List.find?]
    by_cases h : p a = true
    · simp [h]
    · simp only [h]
      simp [h, ih]

theorem tapFromMatches_spec (query : String) (found : List AndroidElem) (h : found ≠ []) :
    ∃ t, specTapTarget found = some t ∧
      tapFromMatches query found = .tapped t.centerX t.centerY := by
  match found with
  | [] => exact absurd rfl h
  | f :: fs =>
    refine ⟨((f :: fs).find? fun e => e.clickable).getD f, ?_, ?_⟩
    · unfold specTapTarget
      cases hf : (f :: fs).find? fun e => e.clickable <;> simp [hf, List.head?]
    · show TapOutcome.tapped _ _ = _
      rw [show ((f :: fs).filter fun e => e.clickable).head?
            = (f :: fs).find? fun e => e.clickable from head?_filter_eq_find? _ _]

theorem encodeLoopGo_total (enc : Nat → Nat) (maxB : Nat) :
    ∀ remaining quality, ∃ size qs,
      encodeLoopGo (fun q => .ok (enc q)) maxB remaining quality = .ok (size, qs) ∧
      qs.length ≤ remaining + 1 ∧
      qs.head? = some quality ∧
      qs.Chain' (fun a b => b = max 20 (a - 15)) := by
  intro remaining
  induction remaining with
  | zero =>
    intro quality
    by_cases h : enc quality ≤ maxB
    · exact ⟨enc quality, [quality], by simp [encodeLoopGo, h], by simp, rfl, by simp⟩
    · exact ⟨enc quality, [quality], by simp [encodeLoopGo, h], by simp, rfl, by simp⟩
  | succ r ih =>
    intro quality
    by_cases h : enc quality ≤ maxB
    · exact ⟨enc quality, [quality], by simp [encodeLoopGo, h], by simp, rfl, by simp⟩
    · obtain ⟨s, qs, heq, hlen, hhead, hchain⟩ := ih (max 20 (quality - 15))
      refine ⟨s, quality :: qs, ?_, by simpa using Nat.succ_le_succ hlen, rfl, ?_⟩
      · simp [encodeLoopGo, h, heq]
      · cases qs with
        | nil => simp at hhead
        | cons b bs =>
          refine List.Chain'.cons ?_ hchain
          simp at hhead
          omega

/-- The dimensions the quality loop encodes at: the merged bounds applied to
the source dimensions. -/
def loopDims (width height : Int) (options : CompressOptions) : Int × Int :=
  targetDims width height (mergeOptions options).maxWidth (mergeOptions options).maxHeight

/-- The post-loop shrink of one dimension:
`Math.round(dim * (Math.sqrt(maxSizeBytes / lastSize) * 0.9))`. -/
def shrunkDim (sqrtFn : ℚ → ℚ) (maxB lastSize : Nat) (d : Int) : Int :=
  round ((d : ℚ) * (sqrtFn ((maxB : ℚ) / (lastSize : ℚ)) * (9 / 10)))

/-! ## C1 -/

/-- C1: for tap-by-text and tap-by-resource-id on Android, whenever the
locator's match list is non-empty, the chosen target is the first matching
element with `clickable = true`, falling back to the first match in traversal
order when none is clickable, and the tap coordinates are that element's
`centerX`/`centerY` (`specTapTarget` states the claim's tie-break rule in the
spec's words). -/
theorem c1_tap_tiebreak (elements : List AndroidElem) (query rquery : String)
    (htne : findByText elements query ≠ [])
    (hrne : findByResourceId elements rquery ≠ []) :
    ∃ t r, specTapTarget (findByText elements query) = some t ∧
      specTapTarget (findByResourceId elements rquery) = some r ∧
      tapByText elements query = .tapped t.centerX t.centerY ∧
      tapByResourceId elements rquery = .tapped r.centerX r.centerY := by
  obtain ⟨t, hts, hte⟩ := tapFromMatches_spec query (findByText elements query) htne
  obtain ⟨r, hrs, hre⟩ := tapFromMatches_spec rquery (findByResourceId elements rquery) hrne
  exact ⟨t, r, hts, hrs, hte, hre⟩

/-- Concrete elements for the C1 witness: the spec's §8 tie-break example, a
non-clickable and a clickable element both with text "Foo", plus a resource
id on the clickable one. -/
def c1Elems : List AndroidElem :=
  [{ index := 0, resourceId := some "id0", text := some "Foo", contentDescription := none,
     clickable := false, centerX := 10, centerY := 20 },
   { index := 1, resourceId := some "res-button", text := some "Foo", contentDescription := none,
     clickable := true, centerX := 30, centerY := 40 }]

theorem c1_tap_tiebreak_witness :
    findByText c1Elems "foo" ≠ [] ∧ findByResourceId c1Elems "button" ≠ [] ∧
      ∃ t r, specTapTarget (findByText c1Elems "foo") = some t ∧
        specTapTarget (findByResourceId c1Elems "button") = some r ∧
        tapByText c1Elems "foo" = .tapped t.centerX t.centerY ∧
        tapByResourceId c1Elems "button" = .tapped r.centerX r.centerY :=
  ⟨by decide, by decide, c1_tap_tiebreak c1Elems "foo" "button" (by decide) (by decide)⟩

/-! ## C2 -/

/-- C2: in bounded-size mode (the merged options always carry a byte budget),
for every encoder behaviour the compressor performs at most 5 JPEG encode
attempts in the quality loop, starting at the merged quality and reducing by
15 per retry with a floor of 20 (`b = max 20 (a - 15)` along the list of
qualities used); if the last loop encode still exceeds `maxSizeBytes`, exactly
one further resize by `sqrt(maxSizeBytes / lastSize) * 0.9` per dimension and
one final encode at quality 50 follow, and the result is returned
unconditionally (`.ok` for every total encoder). -/
theorem c2_compress_loop_structure (enc : Int → Int → Nat → Nat) (sqrtFn : ℚ → ℚ)
    (width height : Int) (options : CompressOptions) :
    ∃ t lastSize loopQs,
      compressScreenshot (fun w h q => .ok (enc w h q)) sqrtFn width height options = .ok t ∧
      encodeLoopGo (fun q => .ok (enc (loopDims width height options).1 (loopDims width height options).2 q))
          (mergeOptions options).maxSizeBytes 4 (mergeOptions options).quality
        = .ok (lastSize, loopQs) ∧
      loopQs.length ≤ 5 ∧
      loopQs.head? = some (mergeOptions options).quality ∧
      List.Chain' (fun a b => b = max 20 (a - 15)) loopQs ∧
      t.qualities = loopQs ++
        (if (mergeOptions options).maxSizeBytes < lastSize then [50] else []) ∧
      t.finalResize = decide ((mergeOptions options).maxSizeBytes < lastSize) ∧
      t.mimeType = "image/jpeg" ∧
      t.width = (if (mergeOptions options).maxSizeBytes < lastSize
        then shrunkDim sqrtFn (mergeOptions options).maxSizeBytes lastSize (loopDims width height options).1
        else (loopDims width height options).1) ∧
      t.height = (if (mergeOptions options).maxSizeBytes < lastSize
        then shrunkDim sqrtFn (mergeOptions options).maxSizeBytes lastSize (loopDims width height options).2
        else (loopDims width height options).2) ∧
      t.dataSize = (if (mergeOptions options).maxSizeBytes < lastSize
        then enc (shrunkDim sqrtFn (mergeOptions options).maxSizeBytes lastSize (loopDims width height options).1)
                 (shrunkDim sqrtFn (mergeOptions options).maxSizeBytes lastSize (loopDims width height options).2) 50
        else lastSize) := by
  obtain ⟨lastSize, loopQs, heq, hlen, hhead, hchain⟩ :=
    encodeLoopGo_total
      (fun q => enc (loopDims width height options).1 (loopDims width height options).2 q)
      (mergeOptions options).maxSizeBytes 4 (mergeOptions options).quality
  have hsw : shrunkDim sqrtFn (mergeOptions options).maxSizeBytes lastSize
      (loopDims width height options).1 = shrunkDim sqrtFn (mergeOptions options).maxSizeBytes
      lastSize (loopDims width height options).1 := rfl
  generalize hswdef : shrunkDim sqrtFn (mergeOptions options).maxSizeBytes lastSize
      (loopDims width height options).1 = sw at hsw
  clear hsw
  generalize hshdef : shrunkDim sqrtFn (mergeOptions options).maxSizeBytes lastSize
      (loopDims width height options).2 = sh
  by_cases hover : (mergeOptions options).maxSizeBytes < lastSize
  · refine ⟨⟨enc sw sh 50, "image/jpeg", sw, sh, loopQs ++ [50], true⟩,
      lastSize, loopQs, ?_, heq, by omega, hhead, hchain,
      by simp [hover], by simp [hover], rfl, by simp [hover, hswdef],
      by simp [hover, hshdef], by simp [hover, hswdef, hshdef]⟩
    simp only [compressScreenshot]
    rw [show targetDims width height (mergeOptions options).maxWidth
          (mergeOptions options).maxHeight
        = ((loopDims width height options).1, (loopDims width height options).2) from rfl]
    simp only [heq]
    rw [if_pos hover]
    rw [show round (((loopDims width height options).1 : ℚ)
          * (sqrtFn (((mergeOptions options).maxSizeBytes : ℚ) / (lastSize : ℚ)) * (9 / 10)))
        = sw from hswdef]
    rw [show round (((loopDims width height options).2 : ℚ)
          * (sqrtFn (((mergeOptions options).maxSizeBytes : ℚ) / (lastSize : ℚ)) * (9 / 10)))
        = sh from hshdef]
  · refine ⟨⟨lastSize, "image/jpeg", (loopDims width height options).1,
        (loopDims width height options).2, loopQs, false⟩,
      lastSize, loopQs, ?_, heq, by omega, hhead, hchain,
      by simp [hover], by simp [hover], rfl, by simp [hover], by simp [hover], by simp [hover]⟩
    simp only [compressScreenshot]
    rw [show targetDims width height (mergeOptions options).maxWidth
          (mergeOptions options).maxHeight
        = ((loopDims width height options).1, (loopDims width height options).2) from rfl]
    simp only [heq]
    rw [if_neg hover]

/-! ## C3 -/

/-- Two usable Android emulators, both with state "device". -/
def c3DevA : Device :=
  { id := "emulator-5554", name := "Pixel", platform := .android, state := "device",
    isSimulator := true }

def c3DevB : Device :=
  { id := "emulator-5556", name := "Pixel2", platform := .android, state := "device",
    isSimulator := true }

/-- A single simulator whose state is "running". -/
def c3DevRunning : Device :=
  { id := "sim-running", name := "RunningSim", platform := .ios, state := "running",
    isSimulator := true }

/-- C3 counterexample: the claim says resolution fails with NoActiveDevice when
more than one usable device is enumerated, and that state "running" counts as
usable. The code auto-activates the first device with state "device"/"booted"
even when two are usable, and errors when the only device's state is
"running". -/
theorem c3_counterexample :
    (getClient [c3DevA, c3DevB] none ⟨none, none, none⟩).1 = .ok ClientKind.android ∧
    (getClient [c3DevRunning] none ⟨none, none, none⟩).1
      = .error "No active device. Use set_device or list_devices first." := by
  constructor <;> rfl

/-- C3 amended: with no platform hint and no active device, `getClient`
enumerates all devices and implicitly activates the first whose state is
"device" or "booted" (regardless of how many are usable; "running" does not
qualify), returning that device's platform client; only when no such device
exists does it fail with the NoActiveDevice error. With zero devices it always
fails. -/
theorem c3_amended (devices : List Device) (s : DMState)
    (hactive : s.activeDevice = none) :
    ((devices.find? (fun d => d.state == "device" || d.state == "booted") = none →
        getClient devices none s
          = (.error "No active device. Use set_device or list_devices first.", s)) ∧
      ∀ d, devices.find? (fun d => d.state == "device" || d.state == "booted") = some d →
        devices.find? (fun x => x.id == d.id) = some d →
        (getClient devices none s).1 = .ok (clientFor d.platform) ∧
        (getClient devices none s).2.activeDevice = some d) := by
  constructor
  · intro hnone
    simp [getClient, hactive, hnone]
  · intro d hfind hid
    have hset : setDevice devices d.id none s
        = (.ok d, match d.platform with
            | .android => { s with activeDevice := some d, androidSelected := some d.id }
            | .ios => { s with activeDevice := some d, iosSelected := some d.id }) := by
      cases hp : d.platform <;> simp [setDevice, hid, hp]
    cases hp : d.platform <;>
      simp [getClient, hactive, hfind, hset, hp]

theorem c3_amended_witness :
    (getClient [c3DevA] none ⟨none, none, none⟩).1 = .ok (clientFor Platform.android) ∧
    (getClient [c3DevA] none ⟨none, none, none⟩).2.activeDevice = some c3DevA :=
  (c3_amended [c3DevA] ⟨none, none, none⟩ rfl).2 c3DevA (by decide) (by decide)

/-! ## C4 -/

/-- A booted iOS simulator; no Android device is connected. -/
def c4Device : Device :=
  { id := "sim1", name := "iPhone 15", platform := .ios, state := "booted",
    isSimulator := true }

/-- C4: evaluation of `setDevice` at the failing input. With only a booted iOS
simulator enumerated, `setDevice("nonexistent", "android")` should fail with
DeviceNotFound (no id match, and no usable device of the hinted platform), but
the fallback predicate
`d.platform === platform && d.state === "device" || d.state === "booted"`
parses as `(… && …) || d.state === "booted"`, so the booted iOS simulator is
selected, made active, and the iOS client — not the Android one — is informed. -/
theorem c4_precedence_bug :
    setDevice [c4Device] "nonexistent" (some .android) ⟨none, none, none⟩
      = (.ok c4Device, { activeDevice := some c4Device, androidSelected := none,
                         iosSelected := some "sim1" }) := by
  rfl

/-! ## C10 -/

/-- The value observed from a backend `getDevices()` call after the
surrounding try/catch: a throwing backend contributes nothing. -/
def recoveredList {α : Type} : Except String (List α) → List α
  | .ok l => l
  | .error _ => []

theorem foldl_push_map {α β : Type} (f : α → β) (xs : List α) :
    ∀ acc : List β, xs.foldl (fun a d => a ++ [f d]) acc = acc ++ xs.map f := by
  induction xs with
  | nil => intro acc; simp
  | cons x t ih => intro acc; simp [ih]

/-- C10: `getAllDevices` is total over backend failures — for every behaviour
of the two backend `getDevices()` calls (each may return a list or throw), the
result is the Android-mapped devices in backend order followed by the
iOS-mapped devices in backend order, a throwing backend contributing no
entries; no exception propagates (the embedding is a total function). -/
theorem c10_getAllDevices_total (androidRes : Except String (List RawAndroidDevice))
    (iosRes : Except String (List RawIosDevice)) :
    getAllDevices androidRes iosRes
      = (recoveredList androidRes).map mapAndroidDevice
        ++ (recoveredList iosRes).map mapIosDevice := by
  cases androidRes <;> cases iosRes <;>
    simp [getAllDevices, recoveredList, foldl_push_map]

/-! ## C5 -/

/-- The empty caller options record: every field absent. -/
def noneOptions : CompressOptions :=
  { maxWidth := none, maxHeight := none, quality := none, maxSizeBytes := none }

/-- The empty dist-variant options record. -/
def noneDistOptions : DistOptions :=
  { maxWidth := none, maxHeight := none, quality := none }


/-- An encoder that produces 2,000,000 bytes at quality 70 and 900,000 bytes
at any other quality, at every dimension. -/
def c5Enc : Int → Int → Nat → Except String Nat :=
  fun _ _ q => .ok (if q = 70 then 2000000 else 900000)

/-- C5 counterexample: the claim says an absent `maxSizeBytes` disables the
bounded-size loop and a single resize+encode pass runs. In the source (Jimp)
compressor the spread fills the absent field with the 1 MiB default, so with
a 2,000,000-byte first encode the quality loop runs a second encode at
quality 55: two encode attempts, not one. -/
theorem c5_counterexample :
    compressScreenshot c5Enc id 100 100
        noneOptions
      = .ok { dataSize := 900000, mimeType := "image/jpeg", width := 100, height := 100,
              qualities := [70, 55], finalResize := false } := by
  rfl

/-- C5 amended: an absent `maxSizeBytes` does not disable the loop in the
source (Jimp) compressor — the merge fills it with the 1 MiB default and the
quality loop can still run; only the dist (sharp) variant unconditionally
performs a single resize+encode pass at the given (or default 80) quality,
with no bounded-size loop at all. -/
theorem c5_amended :
    (∀ o : CompressOptions, o.maxSizeBytes = none →
        (mergeOptions o).maxSizeBytes = 1024 * 1024) ∧
    (∀ (enc : Int → Int → Nat → Nat) (width height : Int) (o : DistOptions),
        (distCompressScreenshot enc width height o).qualities = [o.quality.getD 80] ∧
        (distCompressScreenshot enc width height o).finalResize = false) := by
  constructor
  · intro o h
    simp [mergeOptions, h, DEFAULT_OPTIONS]
  · intro enc width height o
    rcases htd : targetDims width height (o.maxWidth.getD 1080) (o.maxHeight.getD 1920)
      with ⟨nw, nh⟩
    constructor <;> simp [distCompressScreenshot, htd]

theorem c5_amended_witness :
    (mergeOptions noneOptions).maxSizeBytes = 1024 * 1024 ∧
    (distCompressScreenshot (fun _ _ _ => 0) 100 100 noneDistOptions).qualities = [80] :=
  ⟨c5_amended.1 noneOptions rfl,
    (c5_amended.2 (fun _ _ _ => 0) 100 100 noneDistOptions).1⟩

/-! ## C6 -/

/-- The spec's target-dimension rule, written from the spec's words for
comparison with `targetDims`: scale both sides by
`min(maxWidth/width, maxHeight/height)` when either bound is exceeded,
rounding to nearest, else keep the source dimensions. -/
def specTargetDims (width height maxWidth maxHeight : Int) : Int × Int :=
  if width > maxWidth ∨ height > maxHeight then
    (round ((width : ℚ) * min ((maxWidth : ℚ) / (width : ℚ)) ((maxHeight : ℚ) / (height : ℚ))),
     round ((height : ℚ) * min ((maxWidth : ℚ) / (width : ℚ)) ((maxHeight : ℚ) / (height : ℚ))))
  else
    (width, height)

/-- C6: the compressor's dimension computation is exactly the spec's
aspect-preserving rule, and compression of an image already within the
default bounds (800×1400) whose first encode is within the default 1 MiB
budget leaves the dimensions unchanged: a single encode at quality 70, no
resize. -/
theorem c6_resolution_idempotent (enc : Int → Int → Nat → Nat) (sqrtFn : ℚ → ℚ)
    (width height maxWidth maxHeight : Int) :
    targetDims width height maxWidth maxHeight
        = specTargetDims width height maxWidth maxHeight ∧
    (width ≤ 800 → height ≤ 1400 → enc width height 70 ≤ 1024 * 1024 →
      compressScreenshot (fun w h q => .ok (enc w h q)) sqrtFn width height noneOptions
        = .ok { dataSize := enc width height 70, mimeType := "image/jpeg",
                width := width, height := height, qualities := [70],
                finalResize := false }) := by
  constructor
  · rfl
  · intro h1 h2 h3
    have hno : ¬(width > (800 : Int) ∨ height > (1400 : Int)) := by omega
    have hdims : targetDims width height 800 1400 = (width, height) := by
      simp [targetDims, hno]
    have hloop : encodeLoopGo (fun q => .ok (enc width height q)) (1024 * 1024) 4 70
        = .ok (enc width height 70, [70]) := by
      simp [encodeLoopGo, h3]
    have hnotover : ¬(enc width height 70 > 1024 * 1024) := by omega
    simp [compressScreenshot, mergeOptions, DEFAULT_OPTIONS, noneOptions, hdims, hloop, hnotover]

theorem c6_resolution_idempotent_witness :
    compressScreenshot (fun w h q => .ok ((fun (_ : Int) (_ : Int) (_ : Nat) => 1000) w h q))
        id 100 120 noneOptions
      = .ok { dataSize := 1000, mimeType := "image/jpeg", width := 100, height := 120,
              qualities := [70], finalResize := false } :=
  (c6_resolution_idempotent (fun _ _ _ => 1000) id 100 120 0 0).2
    (by decide) (by decide) (by decide)

/-! ## C7 -/

/-- C7 counterexample: the claim says an encoder failure is never surfaced —
the compressor should return the original bytes as image/png. The source has
no try/catch around `Jimp.read`/`getBuffer`: with an encoder that throws,
`compressScreenshot` propagates the error instead of returning a result. -/
theorem c7_counterexample :
    compressScreenshot (fun _ _ _ => .error "No JPEG writer available") id 100 100 noneOptions
      = .error "No JPEG writer available" := by
  rfl

/-- C7 amended: when the JPEG encode step throws, `compressScreenshot`
propagates the error to its caller (the tool dispatcher's catch-all turns it
into an error text); there is no internal fallback to the original PNG bytes —
the only lossless path is `toBase64Png`, used on the `compress = false`
branch. -/
theorem c7_amended (enc : Int → Int → Nat → Except String Nat) (sqrtFn : ℚ → ℚ)
    (width height : Int) (options : CompressOptions) (e : String)
    (henc : ∀ w h q, enc w h q = .error e) :
    compressScreenshot enc sqrtFn width height options = .error e ∧
    (toBase64Png 12345).2 = "image/png" := by
  refine ⟨?_, rfl⟩
  rcases htd : targetDims width height (mergeOptions options).maxWidth
      (mergeOptions options).maxHeight with ⟨nw, nh⟩
  have hloop : encodeLoopGo (enc nw nh) (mergeOptions options).maxSizeBytes 4
      (mergeOptions options).quality = .error e := by
    simp [encodeLoopGo, henc]
  simp [compressScreenshot, htd, hloop]

theorem c7_amended_witness :
    compressScreenshot (fun _ _ _ => .error "boom") id 50 50 noneOptions
      = .error "boom" ∧ (toBase64Png 12345).2 = "image/png" :=
  c7_amended (fun _ _ _ => .error "boom") id 50 50 noneOptions "boom" (fun _ _ _ => rfl)

/-! ## Enumeration-pass lemmas -/

theorem indexedPass_go {α : Type} (f : Nat → α → UiElem) (xs : List α) :
    ∀ (acc : List UiElem) (k : Nat),
      (xs.foldl (fun (a : List UiElem × Nat) x => (a.1 ++ [f a.2 x], a.2 + 1)) (acc, k)).1
        = acc ++ (List.enumFrom k xs).map fun p => f p.1 p.2 := by
  induction xs with
  | nil => intro acc k; simp
  | cons x t ih =>
    intro acc k
    simp only [List.foldl_cons, List.enumFrom, List.map_cons]
    rw [ih]
    simp

theorem indexedPass_eq {α : Type} (f : Nat → α → UiElem) (xs : List α) :
    indexedPass f xs = xs.enum.map fun p => f p.1 p.2 := by
  unfold indexedPass
  rw [indexedPass_go]
  simp [List.enum]

theorem indexedPass_index_map {α : Type} (f : Nat → α → UiElem) (xs : List α)
    (hf : ∀ i a, (f i a).index = i) :
    (indexedPass f xs).map UiElem.index = List.range xs.length := by
  rw [indexedPass_eq, List.map_map]
  have hcomp : (UiElem.index ∘ fun p : Nat × α => f p.1 p.2) = Prod.fst :=
    funext fun p => hf p.1 p.2
  rw [hcomp, List.enum_map_fst]

theorem indexedPass_length {α : Type} (f : Nat → α → UiElem) (xs : List α) :
    (indexedPass f xs).length = xs.length := by
  rw [indexedPass_eq]
  simp

theorem indexedPass_mem {α : Type} (f : Nat → α → UiElem) (xs : List α)
    (e : UiElem) (he : e ∈ indexedPass f xs) : ∃ i a, a ∈ xs ∧ e = f i a := by
  rw [indexedPass_eq] at he
  obtain ⟨p, hp, hpe⟩ := List.mem_map.mp he
  exact ⟨p.1, p.2, List.snd_mem_of_mem_enum hp, hpe.symm⟩

/-! ## C8 -/

def c8Win1 : WindowInfo :=
  { id := "w1", title := "Editor", bounds := ⟨0, 0, 800, 600⟩, focused := true }

def c8Win2 : WindowInfo :=
  { id := "w2", title := "Terminal", bounds := ⟨100, 100, 640, 480⟩, focused := false }

/-- C8 counterexample: with two enumerated windows and a failing osascript
introspection, the macOS variant synthesizes a single whole-screen element
with role "AXWindow" — not one element per window with role "Window" as the
claim states. -/
theorem c8_counterexample :
    (macGetHierarchy (.error "osascript failed") [c8Win1, c8Win2] 1920 1080 1).elements.length
        = 1 ∧
    (macGetHierarchy (.error "osascript failed") [c8Win1, c8Win2] 1920 1080 1).elements.map
        UiElem.role = ["AXWindow"] := by
  constructor <;> rfl

/-- C8 amended: no variant's `getHierarchy` propagates an introspection
failure (every embedded variant is a total function into `UiHierarchy`). The
Linux (and the textually identical Windows) variant always synthesizes one
element per enumerated window with role "Window" and clickable true; the
macOS variant, when introspection throws or parses to zero elements, instead
synthesizes a single whole-screen element with role "AXWindow", text
"Screen", and clickable true. -/
theorem c8_amended :
    (∀ (windows : List WindowInfo) (sf : ℚ),
      (linuxGetHierarchy windows sf).elements.map (fun e => (e.role, e.clickable, e.bounds))
        = windows.map (fun w => ("Window", true, w.bounds))) ∧
    (∀ (err : String) (windows : List WindowInfo) (screenW screenH : Int) (sf : ℚ),
      (macGetHierarchy (.error err) windows screenW screenH sf).elements
        = [createElement 0 (some "Screen") none "AXWindow" 0 0 screenW screenH true true false]) ∧
    (∀ (raws : List RawMacElem) (windows : List WindowInfo) (screenW screenH : Int) (sf : ℚ),
      parseAppleScriptElements (appleScriptOutput raws) = [] →
      (macGetHierarchy (.ok raws) windows screenW screenH sf).elements
        = [createElement 0 (some "Screen") none "AXWindow" 0 0 screenW screenH true true false]) := by
  refine ⟨?_, ?_, ?_⟩
  · intro windows sf
    show (indexedPass windowElement windows).map _ = _
    rw [indexedPass_eq, List.map_map]
    have hcomp : ((fun e : UiElem => (e.role, e.clickable, e.bounds))
          ∘ fun p : Nat × WindowInfo => windowElement p.1 p.2)
        = (fun w : WindowInfo => (("Window" : String), true, w.bounds)) ∘ Prod.snd := by
      funext p
      rfl
    rw [hcomp, ← List.map_map, List.enum_map_snd]
  · intro err windows screenW screenH sf
    rfl
  · intro raws windows screenW screenH sf hempty
    show getUIElementsFromFrontmostApp (.ok raws) screenW screenH = _
    unfold getUIElementsFromFrontmostApp
    simp [hempty]

/-- A raw introspection tuple with degenerate size, filtered out by the
AppleScript-side size guard. -/
def c8ZeroRaw : RawMacElem :=
  { role := "AXGroup", title := "t", desc := "", x := 0, y := 0, w := 0, h := 0,
    enabled := true, focused := false }

theorem c8_amended_witness :
    (macGetHierarchy (.ok [c8ZeroRaw]) [c8Win1] 1920 1080 1).elements
      = [createElement 0 (some "Screen") none "AXWindow" 0 0 1920 1080 true true false] :=
  c8_amended.2.2 [c8ZeroRaw] [c8Win1] 1920 1080 1 (by decide)

/-! ## C9 -/

/-- A window whose reported bounds are degenerate (zero width and height), as
wmctrl can report; the Linux window-bounds path does not filter it. -/
def c9GhostWin : WindowInfo :=
  { id := "0xdead", title := "Ghost", bounds := ⟨5, 6, 0, 0⟩, focused := false }

/-- C9 counterexample: the claim says elements with width ≤ 0 or height ≤ 0
never appear in the indexed sequence, but the Linux variant maps every
enumerated window straight into the element list: a zero-area window yields a
zero-area element at index 0. -/
theorem c9_counterexample :
    (linuxGetHierarchy [c9GhostWin] 1).elements.map
        (fun e => (e.index, e.bounds.width, e.bounds.height))
      = [(0, 0, 0)] := by
  rfl

/-- C9 amended: in every single enumeration pass (the Linux/Windows
window-bounds pass and the macOS AppleScript parse pass) the element indices
are exactly `0..length-1` in order, and every element's center is
`bounds.x + bounds.width / 2` / `bounds.y + bounds.height / 2` (Kotlin
truncating integer division). Zero-area exclusion holds only for the macOS
parse pass, whose AppleScript source filters sizes > 0; the window-bounds
passes copy window bounds unfiltered. -/
theorem c9_amended :
    (∀ (windows : List WindowInfo) (sf : ℚ),
      (linuxGetHierarchy windows sf).elements.map UiElem.index
          = List.range (linuxGetHierarchy windows sf).elements.length ∧
      ∀ e ∈ (linuxGetHierarchy windows sf).elements,
        e.centerX = e.bounds.x + Int.tdiv e.bounds.width 2 ∧
        e.centerY = e.bounds.y + Int.tdiv e.bounds.height 2) ∧
    (∀ raws : List RawMacElem,
      (parseAppleScriptElements (appleScriptOutput raws)).map UiElem.index
          = List.range (parseAppleScriptElements (appleScriptOutput raws)).length ∧
      ∀ e ∈ parseAppleScriptElements (appleScriptOutput raws),
        (e.centerX = e.bounds.x + Int.tdiv e.bounds.width 2 ∧
         e.centerY = e.bounds.y + Int.tdiv e.bounds.height 2) ∧
        0 < e.bounds.width ∧ 0 < e.bounds.height) := by
  constructor
  · intro windows sf
    constructor
    · show (indexedPass windowElement windows).map UiElem.index
          = List.range (indexedPass windowElement windows).length
      rw [indexedPass_length, indexedPass_index_map]
      intro i a
      rfl
    · intro e he
      obtain ⟨i, a, _, rfl⟩ := indexedPass_mem windowElement windows e he
      exact ⟨rfl, rfl⟩
  · intro raws
    constructor
    · show (indexedPass macElement _).map UiElem.index
          = List.range (indexedPass macElement _).length
      rw [indexedPass_length, indexedPass_index_map]
      intro i a
      rfl
    · intro e he
      obtain ⟨i, a, ha, rfl⟩ := indexedPass_mem macElement (appleScriptOutput raws) e he
      have hfilter := List.of_mem_filter ha
      have hwh : a.w > 0 ∧ a.h > 0 := by
        constructor <;> simp_all [decide_eq_true_eq]
      exact ⟨⟨rfl, rfl⟩, hwh.1, hwh.2⟩

def c9Win : WindowInfo :=
  { id := "wmain", title := "Main", bounds := ⟨10, 20, 301, 200⟩, focused := true }

theorem c9_amended_witness :
    (linuxGetHierarchy [c9Win] 1).elements.map UiElem.index
        = List.range (linuxGetHierarchy [c9Win] 1).elements.length ∧
    (windowElement 0 c9Win).centerX
        = (windowElement 0 c9Win).bounds.x + Int.tdiv (windowElement 0 c9Win).bounds.width 2 ∧
    (windowElement 0 c9Win).centerY
        = (windowElement 0 c9Win).bounds.y + Int.tdiv (windowElement 0 c9Win).bounds.height 2 :=
  ⟨((c9_amended.1 [c9Win] 1).1),
    ((c9_amended.1 [c9Win] 1).2 (windowElement 0 c9Win) (by decide))⟩

end Spec2Proof
